import Mathlib

/-!
Verification development for the flow-chart-canvas diagram editor.

The TypeScript sources are shallowly embedded below: pure functions become
Lean functions, the stateful render/editing pipeline becomes explicit state
passing, and browser built-ins (DOMParser, JSON.parse, Date) are passed in
as already-parsed values, since they are external collaborators of the code
under study.  String values are modelled by Lean String; character-level
work is done on the underlying character lists with structurally recursive
helpers, so that every definition evaluates by kernel reduction.
-/

set_option maxRecDepth 8192

namespace FlowCanvas

/-! ## JavaScript string primitives

The repository relies on JS `trim`, `toLowerCase`, `startsWith`, the regex
class `\s`, and ASCII alphanumeric classes.  JS whitespace is WhiteSpace
plus LineTerminator. -/

/-- Character class of the JS regex `\s` (also the set removed by
`String.prototype.trim`). -/
def jsWs (c : Char) : Bool :=
  c = ' ' || c = '\t' || c = '\n' || c = '\r' ||
  c.toNat = 0x0b || c.toNat = 0x0c ||
  c.toNat = 0xa0 || c.toNat = 0xfeff || c.toNat = 0x1680 ||
  (0x2000 <= c.toNat && c.toNat <= 0x200a) ||
  c.toNat = 0x2028 || c.toNat = 0x2029 || c.toNat = 0x202f ||
  c.toNat = 0x205f || c.toNat = 0x3000

/-- JS `String.prototype.trim` on a character list. -/
def jsTrimList (cs : List Char) : List Char :=
  ((cs.dropWhile jsWs).reverse.dropWhile jsWs).reverse

/-- JS `String.prototype.trim`. -/
def jsTrim (s : String) : String :=
  String.mk (jsTrimList s.data)

/-- JS truthiness test for a string: the empty string is falsy. -/
def strTruthy (s : String) : Bool := s ≠ ""

/-- ASCII lower-casing of one character; the strings this repository
lower-cases (tag names, attribute names and values, file extensions) are
ASCII, where JS `toLowerCase` acts exactly like this. -/
def charLower (c : Char) : Char :=
  if 'A' ≤ c && c ≤ 'Z' then Char.ofNat (c.toNat + 32) else c

/-- ASCII lower-casing of a character list. -/
def lowerList (cs : List Char) : List Char := cs.map charLower

/-- JS `String.prototype.toLowerCase` (ASCII fragment). -/
def lowerStr (s : String) : String := String.mk (lowerList s.data)

/-- JS `String.prototype.startsWith`. -/
def startsWithStr (s p : String) : Bool := List.isPrefixOf p.data s.data

/-- The ASCII class `[a-zA-Z0-9]`. -/
def asciiAlphanum (c : Char) : Bool := c.isAlpha || c.isDigit

/-- Left brace character (written via its code point). -/
def lbrace : Char := Char.ofNat 123

/-- Right brace character (written via its code point). -/
def rbrace : Char := Char.ofNat 125

/-! ## Output sanitizer (`src/lib/svgSanitizer.ts`, `sanitizeSvg`)

Markup trees are modelled by the mutual pair `Elem`/`ElemList`: tag name,
attribute list (name/value pairs, in document order) and child elements.
Text nodes carry no script risk for the properties studied here and are
omitted from the model; the code only ever inspects `tagName`,
`attributes` and `children`. -/

mutual

inductive Elem : Type where
  | mk (tag : String) (attrs : List (String × String)) (children : ElemList)
deriving DecidableEq

inductive ElemList : Type where
  | nil
  | cons (e : Elem) (rest : ElemList)
deriving DecidableEq

end

/-- Tag name of an element. -/
def Elem.tag : Elem → String
  | .mk t _ _ => t

/-- Attribute list of an element. -/
def Elem.attrs : Elem → List (String × String)
  | .mk _ a _ => a

/-- Child list of an element. -/
def Elem.children : Elem → ElemList
  | .mk _ _ c => c

/-- Constant `DANGEROUS_TAGS` from `sanitizeSvg`. -/
def DANGEROUS_TAGS : List String :=
  ["script", "iframe", "object", "embed", "form", "input", "button"]

/-- Constant `DANGEROUS_ATTR_PREFIXES` from `sanitizeSvg`. -/
def DANGEROUS_ATTR_PREFIXES : List String := ["on", "javascript:", "data:"]

/-- Constant `DANGEROUS_ATTRS` from `sanitizeSvg`. -/
def DANGEROUS_ATTRS : List String := ["xlink:href", "href", "formaction"]

/-- The per-attribute test of `sanitizeElement`: an attribute is dropped when
its lower-cased name or value starts with a dangerous prefix, or its name is
in the unconditional denylist. -/
def isDangerousAttr (a : String × String) : Bool :=
  let attrName := lowerStr a.1
  let attrValue := lowerStr a.2
  DANGEROUS_ATTR_PREFIXES.any
      (fun p => startsWithStr attrName p || startsWithStr attrValue p) ||
    DANGEROUS_ATTRS.contains attrName

mutual

/-- Function `sanitizeElement` from `sanitizeSvg`.  `none` models `element.remove()`.
A surviving element keeps its tag, drops its dangerous attributes, and has
its children rewritten by the child loop. -/
def sanitizeElement : Elem → Option Elem
  | .mk tag attrs children =>
    if DANGEROUS_TAGS.contains (lowerStr tag) then none
    else some (.mk tag (attrs.filter (fun a => !isDangerousAttr a))
      (sanitizeChildren children))
  termination_by structural e => e

/-- The child loop of `sanitizeElement`:
`for (let i = 0; i < element.children.length; i++) sanitizeElement(children[i])`
over the live DOM collection.  When `children[i]` removes itself the
collection shrinks in place, the loop index still advances, and the element
that slid into slot `i` is skipped entirely (kept verbatim, attributes and
descendants unvisited); iteration resumes with the element after it.  The
recursion below encodes exactly that index/removal interplay. -/
def sanitizeChildren : ElemList → ElemList
  | .nil => .nil
  | .cons x rest =>
    match sanitizeElement x with
    | some x1 => .cons x1 (sanitizeChildren rest)
    | none =>
      match rest with
      | .nil => .nil
      | .cons y rest1 => .cons y (sanitizeChildren rest1)
  termination_by structural l => l

end

mutual

/-- Serialization of an element tree back to markup, modelling
`XMLSerializer.serializeToString`. -/
def serializeElem : Elem → String
  | .mk tag attrs children =>
    "<" ++ tag ++
      (attrs.foldl (fun acc a => acc ++ " " ++ a.1 ++ "=\"" ++ a.2 ++ "\"") "") ++
      ">" ++ serializeElemList children ++ "</" ++ tag ++ ">"
  termination_by structural e => e

/-- Serialization of a child list. -/
def serializeElemList : ElemList → String
  | .nil => ""
  | .cons e rest => serializeElem e ++ serializeElemList rest
  termination_by structural l => l

end

mutual

/-- Number of elements in a tree whose lower-cased tag equals `t`. -/
def tagCount (t : String) : Elem → Nat
  | .mk tag _ children =>
    (if lowerStr tag = t then 1 else 0) + tagCountList t children
  termination_by structural e => e

/-- Number of elements in a child list whose lower-cased tag equals `t`. -/
def tagCountList (t : String) : ElemList → Nat
  | .nil => 0
  | .cons e rest => tagCount t e + tagCountList t rest
  termination_by structural l => l

end

/-- The whole-tree effect of `sanitizeSvg` on a located root element: the
code runs `sanitizeElement(svgElement)` for its side effects and then
serializes `svgElement`.  When the root itself is denylisted,
`element.remove()` merely detaches it and returns before any attribute or
child processing, so the root is serialized untouched — the `none` branch
below. -/
def sanitizeSvgTree (root : Elem) : Elem :=
  match sanitizeElement root with
  | some r => r
  | none => root

/-- Function `sanitizeSvg`.  Here `parsed` stands for the result of the external
`DOMParser.parseFromString` plus `querySelector` lookup of the root svg
element: `none` when no root is found (the function then returns its input
unchanged). -/
def sanitizeSvg (svg : String) (parsed : Option Elem) : String :=
  match parsed with
  | none => svg
  | some root => serializeElem (sanitizeSvgTree root)

/-! ## A small JS-regex interpreter

The rename patcher (`FlowEditor.handleRename`) and the diagram-type
detector build their regexes from a fixed repertoire: literal text,
single-character classes under `?`-free quantifiers (`cls`, `cls*`, `cls+`),
the multiline anchors `^` and `$`, the word boundary `\b`, and a two-way
alternation.  The interpreter below implements exactly that repertoire with
JS semantics: greedy quantifiers with backtracking, left-first alternation,
leftmost match, and candidate ends enumerated in JS preference order. -/

/-- Character comparison, optionally case-insensitive (regex flag `i`). -/
def charEqCI (ci : Bool) (a b : Char) : Bool :=
  if ci then charLower a = charLower b else a = b

/-- Does the needle match at the head of the haystack suffix? -/
def litAt (ci : Bool) : List Char → List Char → Bool
  | [], _ => true
  | _ :: _, [] => false
  | a :: as, b :: bs => charEqCI ci a b && litAt ci as bs

/-- Length of the maximal run of class-`p` characters at the head. -/
def classRun (p : Char → Bool) : List Char → Nat
  | [] => 0
  | c :: rest => if p c then classRun p rest + 1 else 0

/-- JS line terminators (relevant to the multiline anchors `^` and `$`). -/
def lineTerm (c : Char) : Bool :=
  c = '\n' || c = '\r' || c.toNat = 0x2028 || c.toNat = 0x2029

/-- Multiline `^`: start of input or right after a line terminator. -/
def atBol (cs : List Char) (i : Nat) : Bool :=
  i = 0 ||
    (match cs.get? (i - 1) with
     | some c => lineTerm c
     | none => false)

/-- Multiline `$`: end of input or right before a line terminator. -/
def atEol (cs : List Char) (i : Nat) : Bool :=
  i = cs.length ||
    (match cs.get? i with
     | some c => lineTerm c
     | none => false)

/-- The JS word-character class `\w`. -/
def isWordChar (c : Char) : Bool := c.isAlpha || c.isDigit || c = '_'

/-- The JS word boundary `\b` at position `i`. -/
def atWordB (cs : List Char) (i : Nat) : Bool :=
  let before :=
    if i = 0 then false
    else
      match cs.get? (i - 1) with
      | some c => isWordChar c
      | none => false
  let after :=
    match cs.get? i with
    | some c => isWordChar c
    | none => false
  before != after

/-- One regex element of the repertoire described above. -/
inductive RElem : Type where
  | lit (ci : Bool) (s : List Char)
  | one (p : Char → Bool)
  | star (p : Char → Bool)
  | plus (p : Char → Bool)
  | bol
  | eol
  | wordB
  | alt (a b : RElem)

/-- Candidate end positions for one element matched at position `i`, in JS
preference order: quantifiers greedy-longest-first, alternation left first,
anchors zero-width. -/
def elemEnds (cs : List Char) (i : Nat) : RElem → List Nat
  | .lit ci s => if litAt ci s (cs.drop i) then [i + s.length] else []
  | .one p =>
    match cs.get? i with
    | some c => if p c then [i + 1] else []
    | none => []
  | .star p =>
    let k := classRun p (cs.drop i)
    (List.range (k + 1)).map (fun j => i + (k - j))
  | .plus p =>
    let k := classRun p (cs.drop i)
    (List.range k).map (fun j => i + (k - j))
  | .bol => if atBol cs i then [i] else []
  | .eol => if atEol cs i then [i] else []
  | .wordB => if atWordB cs i then [i] else []
  | .alt a b => elemEnds cs i a ++ elemEnds cs i b

/-- Candidate end positions for a sequence of elements matched at `i`, in
backtracking preference order. -/
def seqEnds (cs : List Char) : List RElem → Nat → List Nat
  | [], i => [i]
  | e :: rest, i => (elemEnds cs i e).flatMap (fun j => seqEnds cs rest j)

/-- A rename-patcher pattern `(L)old(R)`: a left context (capture group 1),
the escaped literal old text, and a right context (capture group 2), with
one case-insensitivity flag for the whole pattern.  `grouped` records
whether the two contexts are parenthesized capture groups (true for the
nine prioritized patterns) or bare zero-width boundaries with no capture
groups at all (false, the whole-word fallback pattern). -/
structure RPattern : Type where
  ci : Bool
  grouped : Bool
  left : List RElem
  old : List Char
  right : List RElem

/-- Match the pattern at position `i`; on success return the end of the left
context and the end of the whole match, following JS backtracking order. -/
def patMatchAt (cs : List Char) (P : RPattern) (i : Nat) : Option (Nat × Nat) :=
  (seqEnds cs P.left i).findSome? (fun endL =>
    if litAt P.ci P.old (cs.drop endL) then
      ((seqEnds cs P.right (endL + P.old.length)).head?).map (fun endR => (endL, endR))
    else none)

/-- Leftmost match at a position `≥ j`: `(start, end-of-left, end)`. -/
def findFromPos (cs : List Char) (P : RPattern) (j : Nat) : Option (Nat × Nat × Nat) :=
  (List.range (cs.length + 1 - j)).findSome? (fun d =>
    (patMatchAt cs P (j + d)).map (fun r => (j + d, r)))

/-- JS `pattern.test(text)`. -/
def hasMatch (cs : List Char) (P : RPattern) : Bool :=
  (findFromPos cs P 0).isSome

/-- The slice `cs[a:b]`. -/
def sliceList (cs : List Char) (a b : Nat) : List Char :=
  (cs.drop a).take (b - a)

/-- The backtick character (written via its code point). -/
def backtickChar : Char := Char.ofNat 96

/-- The apostrophe character (written via its code point). -/
def aposChar : Char := Char.ofNat 39

/-- Numeric value of a decimal digit character. -/
def digitVal (c : Char) : Nat := c.toNat - 48

/-- ECMA-262 `GetSubstitution`, applied to one match: a JS replacement
string is scanned for dollar patterns.  Dollar-dollar emits a literal
dollar; dollar-ampersand the whole match; dollar-backtick and
dollar-apostrophe the portions of the original input before and after the
match; a dollar followed by digits first tries the two-digit group index,
falls back to the one-digit index when that exceeds the group count, and is
kept literally (the dollar and the digit) when the index is zero or still
out of range; any other dollar is literal.  The regexes here have no named
groups, so a dollar-angle sequence is also literal.  The recursion is
driven by a fuel counter so that the one-digit fallback can hand the
leftover digit back to the scanner; every step consumes at least one
template character, so `tmpl.length + 1` fuel always suffices. -/
def dollarSubstAux (matched before after : List Char) (captures : List (List Char)) :
    Nat → List Char → List Char
  | 0, tmpl => tmpl
  | _ + 1, [] => []
  | fuel + 1, c :: rest =>
    if c ≠ '$' then c :: dollarSubstAux matched before after captures fuel rest
    else
      match rest with
      | [] => ['$']
      | c2 :: rest2 =>
        if c2 = '$' then
          '$' :: dollarSubstAux matched before after captures fuel rest2
        else if c2 = '&' then
          matched ++ dollarSubstAux matched before after captures fuel rest2
        else if c2 = backtickChar then
          before ++ dollarSubstAux matched before after captures fuel rest2
        else if c2 = aposChar then
          after ++ dollarSubstAux matched before after captures fuel rest2
        else if c2.isDigit then
          match rest2 with
          | c3 :: rest3 =>
            if c3.isDigit then
              let idx2 := digitVal c2 * 10 + digitVal c3
              if 1 ≤ idx2 ∧ idx2 ≤ captures.length then
                captures.getD (idx2 - 1) [] ++
                  dollarSubstAux matched before after captures fuel rest3
              else
                let idx1 := digitVal c2
                if 1 ≤ idx1 ∧ idx1 ≤ captures.length then
                  captures.getD (idx1 - 1) [] ++
                    dollarSubstAux matched before after captures fuel (c3 :: rest3)
                else
                  '$' :: c2 ::
                    dollarSubstAux matched before after captures fuel (c3 :: rest3)
            else
              let idx1 := digitVal c2
              if 1 ≤ idx1 ∧ idx1 ≤ captures.length then
                captures.getD (idx1 - 1) [] ++
                  dollarSubstAux matched before after captures fuel rest2
              else
                '$' :: c2 :: dollarSubstAux matched before after captures fuel rest2
          | [] =>
            let idx1 := digitVal c2
            if 1 ≤ idx1 ∧ idx1 ≤ captures.length then
              captures.getD (idx1 - 1) []
            else ['$', c2]
        else
          '$' :: dollarSubstAux matched before after captures fuel rest

/-- JS dollar substitution of one replacement template against one match. -/
def dollarSubst (matched before after : List Char) (captures : List (List Char))
    (tmpl : List Char) : List Char :=
  dollarSubstAux matched before after captures (tmpl.length + 1) tmpl

/-- The capture list of one match of a pattern: the two context groups for
the parenthesized patterns, no groups for the whole-word fallback. -/
def matchCaptures (cs : List Char) (P : RPattern) (s endL endR : Nat) :
    List (List Char) :=
  if P.grouped then
    [sliceList cs s endL, sliceList cs (endL + P.old.length) endR]
  else []

/-- Global replace, one match per step: copy up to the match, emit the
replacement template with JS dollar substitution performed against this
match, and continue after the match.  The old text is non-empty for every
caller, so each match consumes at least one character and `cs.length + 1`
steps of fuel always suffice. -/
def gReplaceAux (cs : List Char) (P : RPattern) (tmpl : List Char) :
    Nat → Nat → List Char
  | 0, j => cs.drop j
  | fuel + 1, j =>
    match findFromPos cs P j with
    | none => cs.drop j
    | some (s, endL, endR) =>
      sliceList cs j s ++
        dollarSubst (sliceList cs s endR) (sliceList cs 0 s) (cs.drop endR)
          (matchCaptures cs P s endL endR) tmpl ++
        gReplaceAux cs P tmpl fuel endR

/-- JS `text.replace(pattern, tmpl)` with the `g` flag, `tmpl` being the
whole replacement string (subject to dollar substitution per match). -/
def gReplace (cs : List Char) (P : RPattern) (tmpl : List Char) : List Char :=
  gReplaceAux cs P tmpl (cs.length + 1) 0

/-! ## Diagram type detection (`src/lib/mermaidFileUtils.ts`) -/

/-- The `DiagramType` string union of `src/types/diagram.ts` (the `class`
member is spelled `cls` because `class` is reserved in Lean). -/
inductive DiagramType : Type where
  | flowchart | sequence | cls | state | er | gantt | pie | mindmap
  | timeline | quadrant | gitgraph | c4 | sankey | block | journey
deriving DecidableEq

/-- The string value of a `DiagramType`. -/
def DiagramType.toStr : DiagramType → String
  | .flowchart => "flowchart"
  | .sequence => "sequence"
  | .cls => "class"
  | .state => "state"
  | .er => "er"
  | .gantt => "gantt"
  | .pie => "pie"
  | .mindmap => "mindmap"
  | .timeline => "timeline"
  | .quadrant => "quadrant"
  | .gitgraph => "gitgraph"
  | .c4 => "c4"
  | .sankey => "sankey"
  | .block => "block"
  | .journey => "journey"

/-- Does the element sequence match anywhere in the text (`pattern.test`)? -/
def seqTest (cs : List Char) (es : List RElem) : Bool :=
  (List.range (cs.length + 1)).any (fun i => !(seqEnds cs es i).isEmpty)

/-- Constant `DIAGRAM_TYPE_PATTERNS`: each source regex `/^head.../im` becomes a
multiline `^` anchor plus a case-insensitive literal (plus one `\s` class
character for the two flowchart patterns), in source order. -/
def DIAGRAM_TYPE_PATTERNS : List (List RElem × DiagramType) :=
  [([.bol, .lit true "flowchart".data, .one jsWs], .flowchart),
   ([.bol, .lit true "graph".data, .one jsWs], .flowchart),
   ([.bol, .lit true "sequencediagram".data], .sequence),
   ([.bol, .lit true "classdiagram".data], .cls),
   ([.bol, .lit true "statediagram".data], .state),
   ([.bol, .lit true "erdiagram".data], .er),
   ([.bol, .lit true "gantt".data], .gantt),
   ([.bol, .lit true "pie".data], .pie),
   ([.bol, .lit true "mindmap".data], .mindmap),
   ([.bol, .lit true "timeline".data], .timeline),
   ([.bol, .lit true "quadrantchart".data], .quadrant),
   ([.bol, .lit true "gitgraph".data], .gitgraph),
   ([.bol, .lit true "c4context".data], .c4),
   ([.bol, .lit true "c4container".data], .c4),
   ([.bol, .lit true "c4component".data], .c4),
   ([.bol, .lit true "c4dynamic".data], .c4),
   ([.bol, .lit true "c4deployment".data], .c4),
   ([.bol, .lit true "sankey".data], .sankey),
   ([.bol, .lit true "block-beta".data], .block),
   ([.bol, .lit true "journey".data], .journey)]

/-- Function `detectDiagramType`: trim, return the type of the first matching
pattern, defaulting to flowchart. -/
def detectDiagramType (code : String) : DiagramType :=
  let trimmed := jsTrimList code.data
  match DIAGRAM_TYPE_PATTERNS.find? (fun pr => seqTest trimmed pr.1) with
  | some pr => pr.2
  | none => .flowchart

/-! ## Render scheduler state (`src/hooks/useDiagramEditor.ts`)

`EditorState` collects the orchestrator fields touched by `renderDiagram`
and `setCode`: the current source (`codeHistory.state`), the rendered
output, the validity pair, and the in-flight flag.  `renderDiagram` is an
async function; the model applies one whole invocation (the synchronous
blank-source early return, or the completion of the awaited external
`mermaid.render` call) as one state update, which is exactly the granularity
at which the hook calls its `set*` state setters. -/

structure EditorState : Type where
  code : String
  svgOutput : String
  isValid : Bool
  error : Option String
  isRendering : Bool
deriving DecidableEq

/-- Outcome of the external `mermaid.render` call: resolved markup, or a
rejection carrying `err.message` when the thrown value is an `Error`
(`none` models a non-`Error` throw). -/
inductive RenderOutcome : Type where
  | ok (svg : String)
  | err (msg : Option String)
deriving DecidableEq

/-- Function `renderDiagram(code, theme)` from `useDiagramEditor`, applied at
completion.  Blank (trimmed-empty) source: clear output, trivially valid,
and return before `setIsRendering(true)`.  Success: store the raw markup,
mark valid.  Failure: mark invalid with the message (or the fixed fallback
text), leaving `svgOutput` untouched.  The theme only configures the
external renderer and does not influence these state updates. -/
def renderDiagram (code : String) (out : RenderOutcome) (st : EditorState) :
    EditorState :=
  if jsTrim code = "" then
    { st with svgOutput := "", isValid := true, error := none }
  else
    match out with
    | .ok svg =>
      { st with svgOutput := svg, isValid := true, error := none, isRendering := false }
    | .err m =>
      { st with isValid := false, error := some (m.getD "Invalid diagram syntax"),
                isRendering := false }

/-- Observable editing events: a source-text change committed through the
history engine (`setCode`), or one render invocation together with its
completion.  The `code` of a render event is the source snapshot the
debounce timer captured, which can differ from the current `code` field by
the time an in-flight completion lands. -/
inductive REv : Type where
  | edit (s : String)
  | render (code : String) (out : RenderOutcome)

/-- One event applied to the editor state. -/
def stepEv (st : EditorState) : REv → EditorState
  | .edit s => { st with code := s }
  | .render code out => renderDiagram code out st

/-- The flowchart template from `src/lib/diagramTemplates.ts`, the
`getDefaultCode` result used for the initial state. -/
def flowchartTemplate : String :=
  "flowchart TD\n    A[Start] --> B{Decision}\n    B -->|Yes| C[Process 1]\n    B -->|No| D[Process 2]\n    C --> E[End]\n    D --> E"

/-- The initial editor state (fresh load without stored state). -/
def initState : EditorState :=
  { code := flowchartTemplate, svgOutput := "", isValid := true,
    error := none, isRendering := false }

/-- States reachable from the initial state by a sequence of events. -/
def reach (evs : List REv) : EditorState := evs.foldl stepEv initState

/-- The markup `DiagramPreview` inserts into the live document: when valid
and non-empty, `dangerouslySetInnerHTML` receives `sanitizeSvg(svgOutput)`;
otherwise nothing is inserted. -/
def insertedMarkup (st : EditorState) (parsed : Option Elem) : Option String :=
  if st.isValid && strTruthy st.svgOutput then
    some (sanitizeSvg st.svgOutput parsed)
  else none

/-! ## Import pipeline (`src/lib/mermaidFileUtils.ts`, `ImportButton.tsx`)

JSON documents produced by the external `JSON.parse` are modelled by the
mutual `JsonValue`/`JsonArr`/`JsonObj` types; an unparsable payload is the
`none` case of the `jsonParse` argument. -/

mutual

inductive JsonValue : Type where
  | null
  | bool (b : Bool)
  | num (n : Int)
  | str (s : String)
  | arr (xs : JsonArr)
  | obj (fs : JsonObj)
deriving DecidableEq

inductive JsonArr : Type where
  | nil
  | cons (v : JsonValue) (rest : JsonArr)
deriving DecidableEq

inductive JsonObj : Type where
  | nil
  | cons (k : String) (v : JsonValue) (rest : JsonObj)
deriving DecidableEq

end

/-- JS member access `o[k]` on a parsed JSON object (`JSON.parse` keeps one
binding per key); `none` models `undefined`. -/
def getField : JsonObj → String → Option JsonValue
  | .nil, _ => none
  | .cons k v rest, key => if k = key then some v else getField rest key

/-- JS truthiness of a JSON value. -/
def jsonTruthy : JsonValue → Bool
  | .null => false
  | .bool b => b
  | .num n => n != 0
  | .str s => s ≠ ""
  | .arr _ => true
  | .obj _ => true

/-- Function `sanitizeImportedCode`: reject code longer than the fixed ceiling,
otherwise return it unchanged.  The thrown `Error` becomes `Except.error`. -/
def sanitizeImportedCode (code : String) : Except String String :=
  if code.length > 1000000 then
    .error "File size exceeds maximum limit (1MB)"
  else .ok code

/-- Function `validateProjectFile`: the parsed value must be a non-null object (JS
`typeof` also lets arrays through, but member access on an array yields
`undefined`) whose `code` member is a string. -/
def validateProjectFile : JsonValue → Bool
  | .obj fs =>
    match getField fs "code" with
    | some (.str _) => true
    | _ => false
  | _ => false

/-- The result record of `parseImportedFile`.  The optional fields are the
raw JSON values the TypeScript code passes through unchecked (its casts do
not validate them); on the raw-code path the detected diagram type is the
string value the detector returns. -/
structure ImportData : Type where
  code : String
  diagramType : Option JsonValue
  theme : Option JsonValue
  title : Option JsonValue
  description : Option JsonValue
deriving DecidableEq

/-- JS `file.name.split(dot).pop()?.toLowerCase()`: the lower-cased text after
the last dot (the whole name when it has no dot). -/
def extOf (fileName : String) : String :=
  String.mk (lowerList ((fileName.data.reverse.takeWhile (fun c => c ≠ '.')).reverse))

/-- Stands for the browser-specific `SyntaxError` message thrown by
`JSON.parse` on corrupt input. -/
def jsonSyntaxErrorMsg : String := "Unexpected token in JSON"

/-- The raw-code path of `parseImportedFile` (`.mmd`/`.txt`, and the
fall-through for a non-project `.flowilham` file): size-check the content
and auto-detect the diagram type. -/
def rawImport (content : String) : Except String ImportData :=
  match sanitizeImportedCode content with
  | .error e => .error e
  | .ok sc =>
    .ok ⟨sc, some (.str (DiagramType.toStr (detectDiagramType sc))), none, none, none⟩

/-- Function `parseImportedFile` (the version with `sanitizeImportedCode` and
`validateProjectFile`).  For `.flowilham`/`.json` it tries the project-file
route inside `try`; any throw there is rethrown for `.json` but falls
through to the raw-code route for `.flowilham`. -/
def parseImportedFile (fileName content : String) (jsonParse : Option JsonValue) :
    Except String ImportData :=
  let extension := extOf fileName
  if extension = "flowilham" || extension = "json" then
    let attempt : Except String ImportData :=
      match jsonParse with
      | none => .error jsonSyntaxErrorMsg
      | some parsed =>
        if !validateProjectFile parsed then
          .error "Invalid project file: missing or invalid code field"
        else
          match parsed with
          | .obj fs =>
            match getField fs "code" with
            | some (.str code) =>
              match sanitizeImportedCode code with
              | .error e => .error e
              | .ok sc =>
                .ok ⟨sc, getField fs "diagramType", getField fs "theme",
                     getField fs "title", getField fs "description"⟩
            | _ => .error "Invalid project file: missing or invalid code field"
          | _ => .error "Invalid project file: missing or invalid code field"
    match attempt with
    | .ok r => .ok r
    | .error e => if extension = "json" then .error e else rawImport content
  else rawImport content

/-- Function `handleFileChange` from `ImportButton`: hard 1 MiB byte ceiling on the
file, extension allowlist, then `parseImportedFile`; any throw is caught
and surfaced as a destructive toast instead of an import. -/
def handleFileChange (fileSize : Nat) (fileName content : String)
    (jsonParse : Option JsonValue) : Except String ImportData :=
  if fileSize > 1 * 1024 * 1024 then
    .error "File size exceeds maximum limit of 1MB"
  else if !(["mmd", "txt", "flowilham", "json"].contains (extOf fileName)) then
    .error "Invalid file type. Only .mmd, .txt, .flowilham, and .json files are allowed."
  else parseImportedFile fileName content jsonParse

/-- The character class kept by the first title-sanitizing replace of
`generateFilename`: the complement of `[^a-zA-Z0-9\s\-_]`. -/
def keepFilenameChar (c : Char) : Bool :=
  asciiAlphanum c || jsWs c || c = '-' || c = '_'

/-- The second title-sanitizing replace of `generateFilename`,
`replace(whitespace-run-regex, underscore)`: each maximal run of `\s`
characters becomes one underscore.  The flag tracks whether the previous
character was part of a run. -/
def collapseWsAux (prevWs : Bool) : List Char → List Char
  | [] => []
  | c :: rest =>
    if jsWs c then
      if prevWs then collapseWsAux true rest
      else '_' :: collapseWsAux true rest
    else c :: collapseWsAux false rest

/-- Collapse every whitespace run to a single underscore. -/
def collapseWsToUnderscore (cs : List Char) : List Char :=
  collapseWsAux false cs

/-- Function `generateFilename` (the title-aware version).  Here `dateStr` stands for the
external `new Date().toISOString().split(T-separator)[0]` value, a
`YYYY-MM-DD` string.  A truthy title with truthy trim is trimmed, stripped
to `[a-zA-Z0-9\s\-_]`, whitespace-collapsed to underscores, and combined as
`title_date_type`; otherwise the result is `type-date`. -/
def generateFilename (diagramType : DiagramType) (title : Option String)
    (dateStr : String) : String :=
  match title with
  | some t =>
    if strTruthy t && strTruthy (jsTrim t) then
      let sanitizedTitle :=
        collapseWsToUnderscore ((jsTrimList t.data).filter keepFilenameChar)
      String.mk sanitizedTitle ++ "_" ++ dateStr ++ "_" ++ diagramType.toStr
    else diagramType.toStr ++ "-" ++ dateStr
  | none => diagramType.toStr ++ "-" ++ dateStr

/-- The session fields `importProject` can touch.  The settings fields hold
whatever JSON values the import pipeline passed through. -/
structure SessionState : Type where
  code : String
  diagramType : JsonValue
  theme : JsonValue
  projectTitle : JsonValue
deriving DecidableEq

/-- Function `importProject` from `useDiagramEditor`: truthy `code` replaces the
source; truthy `diagramType`/`theme` overwrite settings; a present (even
falsy) `title` overwrites the project title; absent fields leave the
session untouched. -/
def importProject (st : SessionState) (d : ImportData) : SessionState :=
  let st1 := if strTruthy d.code then { st with code := d.code } else st
  let st2 :=
    match d.diagramType with
    | some v => if jsonTruthy v then { st1 with diagramType := v } else st1
    | none => st1
  let st3 :=
    match d.theme with
    | some v => if jsonTruthy v then { st2 with theme := v } else st2
    | none => st2
  match d.title with
  | some v => { st3 with projectTitle := v }
  | none => st3

/-- End-to-end effect of one import attempt on the session: `onImport`
(hence `importProject`) runs only when the pipeline succeeded; the catch
branch only shows a toast. -/
def applyImportResult (st : SessionState) (res : Except String ImportData) :
    SessionState :=
  match res with
  | .error _ => st
  | .ok d => importProject st d

/-! ## Rename patcher (`src/components/editor/FlowEditor.tsx`, `handleRename`)

Each source pattern has the shape `(left)oldText(right)` and is replaced
globally by `dollar1 ++ newText ++ dollar2`.  The `escapeRegExp` step of the
code makes the old text match literally, which `RPattern.old` does
directly. -/

/-- The class `[-<>]` used by the message-arrow patterns. -/
def arrowChar (c : Char) : Bool := c = '-' || c = '<' || c = '>'

/-- The class `[^:]` used by the note pattern. -/
def notColon (c : Char) : Bool := c ≠ ':'

/-- The nine prioritized patterns of `handleRename`, in source order:
participant and actor declarations, bracketed/parenthesized/braced labels,
message sender, message receiver, message text, note text. -/
def renamePatterns (old : List Char) : List RPattern :=
  [⟨false, true, [.lit false "participant".data, .plus jsWs], old, [.alt (.one jsWs) .eol]⟩,
   ⟨false, true, [.lit false "actor".data, .plus jsWs], old, [.alt (.one jsWs) .eol]⟩,
   ⟨false, true, [.lit false "[".data], old, [.lit false "]".data]⟩,
   ⟨false, true, [.lit false "(".data], old, [.lit false ")".data]⟩,
   ⟨false, true, [.lit false [lbrace]], old, [.lit false [rbrace]]⟩,
   ⟨false, true, [.bol, .star jsWs], old, [.star jsWs, .plus arrowChar]⟩,
   ⟨false, true, [.plus arrowChar, .star jsWs], old, [.star jsWs, .lit false ":".data]⟩,
   ⟨false, true, [.lit false ":".data, .star jsWs], old, [.star jsWs, .eol]⟩,
   ⟨true, true, [.lit true "note".data, .star notColon, .lit true ":".data, .star jsWs],
     old, [.star jsWs, .eol]⟩]

/-- The whole-word fallback `\b old \b`: zero-width boundaries, no capture
groups (so a group reference in the replacement string stays literal). -/
def fallbackPattern (old : List Char) : RPattern :=
  ⟨false, false, [.wordB], old, [.wordB]⟩

/-- The replacement string `$1${newText}$2` the nine prioritized patterns
are replaced with: the template is the five-character-plus-newText string
whose whole text — including any dollar patterns the user typed inside
`newText` — undergoes JS dollar substitution per match. -/
def replTemplate (nw : List Char) : List Char :=
  '$' :: '1' :: (nw ++ ['$', '2'])

/-- The `for`/`break` loop over the prioritized patterns: the first pattern
whose `test` succeeds is applied as a global replace (with the `$1...$2`
template) and the loop stops. -/
def tryPatterns (cs nw : List Char) : List RPattern → Option (List Char)
  | [] => none
  | p :: ps =>
    if hasMatch cs p then some (gReplace cs p (replTemplate nw))
    else tryPatterns cs nw ps

/-- Function `handleRename(oldText, newText)` acting on the current source `code`:
guard clause, prioritized patterns replaced via the `$1${newText}$2`
template, whole-word fallback replaced via the bare `newText` string (both
subject to JS dollar substitution), and `setCode` only when something was
replaced and the text actually changed.  The returned string is the source
text after the call. -/
def handleRename (oldText newText code : String) : String :=
  if oldText = "" || newText = "" || oldText = newText then code
  else
    let cs := code.data
    match tryPatterns cs newText.data (renamePatterns oldText.data) with
    | some nc => if nc ≠ cs then String.mk nc else code
    | none =>
      let fb := fallbackPattern oldText.data
      if hasMatch cs fb then
        let nc := gReplace cs fb newText.data
        if nc ≠ cs then String.mk nc else code
      else code

/-! ## In-canvas edit flow (`src/components/editor/DiagramPreview.tsx`) -/

/-- The `editState` record of `DiagramPreview` (position flattened to two
coordinates). -/
structure EditState : Type where
  isEditing : Bool
  originalText : String
  newText : String
  posX : Int
  posY : Int
deriving DecidableEq

/-- The reset value used after submit/cancel. -/
def clearedEditState : EditState := ⟨false, "", "", 0, 0⟩

/-- The class `[a-f0-9]` with the `i` flag. -/
def isHexDigitCI (c : Char) : Bool :=
  c.isDigit || ('a' ≤ c && c ≤ 'f') || ('A' ≤ c && c ≤ 'F')

/-- JS `text.match` of the hex-color pattern: a hash followed by six or more
case-insensitive hex digits somewhere in the text (at least six exist iff
exactly six consecutive ones do). -/
def hexColorMatch : List Char → Bool
  | [] => false
  | c :: rest =>
    (c = '#' && (rest.take 6).length = 6 && (rest.take 6).all isHexDigitCI) ||
      hexColorMatch rest

/-- Function `handleDiagramClick`, from the point where the text of the clicked element
has been extracted: bail out without touching the edit state when there is
no rename callback, a drag is in progress, the text is empty, the text
looks like CSS (brace characters or a hex color), or the container
bounding box is unavailable; otherwise open the inline editor seeded with
the text. -/
def handleDiagramClick (onRenamePresent isDragging : Bool) (text : String)
    (hasContainerRect : Bool) (posX posY : Int) (st : EditState) : EditState :=
  if !onRenamePresent || isDragging then st
  else if text = "" then st
  else if text.data.contains lbrace || text.data.contains rbrace ||
      hexColorMatch text.data then st
  else if !hasContainerRect then st
  else { isEditing := true, originalText := text, newText := text, posX := posX, posY := posY }

/-- Function `handleEditSubmit`: fire the rename callback only when the new text is
non-empty and differs from the original, then always clear the edit state.
The first component is the `onRename` invocation (if any). -/
def handleEditSubmit (st : EditState) : Option (String × String) × EditState :=
  (if strTruthy st.newText && st.newText ≠ st.originalText then
     some (st.originalText, st.newText)
   else none,
   clearedEditState)

/-- The effect of one submit on the source text, with `FlowEditor`
supplying `handleRename` as the `onRename` callback. -/
def applySubmit (st : EditState) (src : String) : String :=
  match (handleEditSubmit st).1 with
  | some (o, n) => handleRename o n src
  | none => src

deriving instance DecidableEq for Except

/-! ## Helper lemmas -/

/-- If every element of the prefix before index `i` fails the test and the
element at `i` passes it, then `find?` returns the element at `i`. -/
theorem find?_of_take_all {α : Type} (p : α → Bool) :
    ∀ (l : List α) (i : Nat) (h : i < l.length),
      (l.take i).all (fun a => !p a) = true → p (l.get ⟨i, h⟩) = true →
      l.find? p = some (l.get ⟨i, h⟩) := by
  intro l
  induction l with
  | nil => intro i h _ _; exact absurd h (by simp)
  | cons a rest ih =>
    intro i h hall hp
    cases i with
    | zero =>
      simp only [List.get] at hp ⊢
      simp [List.find?, hp]
    | succ n =>
      have hpa : p a = false := by
        have := hall
        simp [List.take, List.all_cons] at this
        simpa using this.1
      have hrest : (rest.take n).all (fun a => !p a) = true := by
        have := hall
        simp [List.take, List.all_cons] at this
        simpa using this.2
      have hn : n < rest.length := by simpa [List.length_cons, Nat.succ_lt_succ_iff] using h
      simp only [List.get]
      rw [List.find?]
      simp [hpa]
      exact ih n hn hrest hp

/-- Function `tryPatterns` is the first-match loop: it applies `gReplace` with the
first pattern whose test succeeds and ignores all later patterns. -/
theorem tryPatterns_eq_find (cs nw : List Char) :
    ∀ ps : List RPattern,
      tryPatterns cs nw ps =
        (ps.find? (fun p => hasMatch cs p)).map
          (fun p => gReplace cs p (replTemplate nw)) := by
  intro ps
  induction ps with
  | nil => rfl
  | cons p rest ih =>
    by_cases hp : hasMatch cs p
    · simp [tryPatterns, List.find?, hp]
    · simp [tryPatterns, List.find?, hp, ih]

/-- Every character of a collapsed list is an underscore or a
non-whitespace character of the input. -/
theorem mem_collapseWsAux :
    ∀ (l : List Char) (b : Bool) (c : Char), c ∈ collapseWsAux b l →
      c = '_' ∨ (c ∈ l ∧ jsWs c = false) := by
  intro l
  induction l with
  | nil => intro b c hc; simp [collapseWsAux] at hc
  | cons a rest ih =>
    intro b c hc
    by_cases ha : jsWs a
    · cases b with
      | true =>
        simp only [collapseWsAux, ha, if_pos, if_true] at hc
        rcases ih true c hc with h | ⟨hm, hw⟩
        · exact Or.inl h
        · exact Or.inr ⟨List.mem_cons_of_mem _ hm, hw⟩
      | false =>
        simp only [collapseWsAux, ha, if_pos, if_true] at hc
        rcases List.mem_cons.mp hc with h | h
        · exact Or.inl h
        · rcases ih true c h with h2 | ⟨hm, hw⟩
          · exact Or.inl h2
          · exact Or.inr ⟨List.mem_cons_of_mem _ hm, hw⟩
    · simp only [collapseWsAux, ha, if_neg, if_false, Bool.false_eq_true] at hc
      rcases List.mem_cons.mp hc with h | h
      · subst h
        exact Or.inr ⟨List.mem_cons_self _ _, by simpa using ha⟩
      · rcases ih false c h with h2 | ⟨hm, hw⟩
        · exact Or.inl h2
        · exact Or.inr ⟨List.mem_cons_of_mem _ hm, hw⟩

/-- Every character of a diagram-type string is ASCII alphanumeric. -/
theorem toStr_chars (dt : DiagramType) :
    ∀ c ∈ (DiagramType.toStr dt).data, asciiAlphanum c = true := by
  cases dt <;> decide

/-- A non-empty rendered output traces back to a successful render event of
a non-blank source snapshot, or was already present in the start state. -/
theorem foldl_svgOutput_source :
    ∀ (evs : List REv) (st : EditorState),
      (evs.foldl stepEv st).svgOutput ≠ "" →
      (∃ code svg, REv.render code (.ok svg) ∈ evs ∧ jsTrim code ≠ "" ∧
          (evs.foldl stepEv st).svgOutput = svg) ∨
        (evs.foldl stepEv st).svgOutput = st.svgOutput := by
  intro evs
  induction evs with
  | nil => intro st _; exact Or.inr rfl
  | cons e rest ih =>
    intro st h
    have hfold : (e :: rest).foldl stepEv st = rest.foldl stepEv (stepEv st e) := rfl
    rw [hfold] at h ⊢
    rcases ih (stepEv st e) h with ⟨code, svg, hmem, hcode, hsvg⟩ | heq
    · exact Or.inl ⟨code, svg, List.mem_cons_of_mem _ hmem, hcode, hsvg⟩
    · cases e with
      | edit s => exact Or.inr (by rw [heq]; rfl)
      | render code out =>
        by_cases hb : jsTrim code = ""
        · exfalso
          apply h
          rw [heq]
          simp [stepEv, renderDiagram, hb]
        · cases out with
          | ok svg =>
            refine Or.inl ⟨code, svg, List.mem_cons_self _ _, hb, ?_⟩
            rw [heq]
            simp [stepEv, renderDiagram, hb]
          | err m =>
            refine Or.inr ?_
            rw [heq]
            simp [stepEv, renderDiagram, hb]

/-! ## Shared concrete fixtures -/

/-- A bare denylisted element. -/
def scriptChild : Elem := .mk "script" [] .nil

/-- An svg root with two adjacent denylisted children. -/
def doubleScriptSvg : Elem := .mk "svg" [] (.cons scriptChild (.cons scriptChild .nil))

/-- An svg root with one denylisted child. -/
def singleScriptSvg : Elem := .mk "svg" [] (.cons scriptChild .nil)

/-! ## Claims -/

/-- C1, counterexample to the claim as stated: after a successful render
whose markup contains a script element, the stored `svgOutput` equals the
raw renderer markup, which differs from the sanitizer applied to that
markup — so `renderedOutput = sanitize(output)` fails. -/
theorem c1_stored_output_not_sanitized :
    (renderDiagram "graph TD\n  A-->B" (.ok (serializeElem singleScriptSvg))
        initState).svgOutput = serializeElem singleScriptSvg ∧
      serializeElem singleScriptSvg ≠
        sanitizeSvg (serializeElem singleScriptSvg) (some singleScriptSvg) := by
  constructor
  · decide
  · decide

/-- C1, amended: on every successful render of a non-blank source the hook
stores the raw renderer markup unchanged, and the preview applies the
sanitizer to exactly that stored markup before inserting it into the live
document, so the inserted markup equals `sanitize(output)`. -/
theorem c1_sanitize_applied_at_insertion
    (st : EditorState) (code svg : String) (parsed : Option Elem)
    (hc : jsTrim code ≠ "") (hs : svg ≠ "") :
    (renderDiagram code (.ok svg) st).svgOutput = svg ∧
      insertedMarkup (renderDiagram code (.ok svg) st) parsed =
        some (sanitizeSvg svg parsed) := by
  constructor
  · simp [renderDiagram, hc]
  · simp [renderDiagram, insertedMarkup, strTruthy, hc, hs]

/-- C1, witness for the amended theorem at a concrete render. -/
theorem c1_sanitize_applied_at_insertion_witness :
    (renderDiagram "graph TD" (.ok "<svg></svg>") initState).svgOutput = "<svg></svg>" ∧
      insertedMarkup (renderDiagram "graph TD" (.ok "<svg></svg>") initState) none =
        some (sanitizeSvg "<svg></svg>" none) :=
  c1_sanitize_applied_at_insertion initState "graph TD" "<svg></svg>" none
    (by decide) (by decide)

/-- C2: evaluating the sanitizer at the failing input — an svg whose
children are two adjacent script elements — leaves one script element in
the output (the claim and the spec require zero): removing the first child
shifts the live collection while the loop index advances, so the second
script is skipped. -/
theorem c2_adjacent_script_survives :
    tagCount "script" (sanitizeSvgTree doubleScriptSvg) = 1 ∧
      sanitizeSvgTree doubleScriptSvg = singleScriptSvg ∧
      sanitizeSvg (serializeElem doubleScriptSvg) (some doubleScriptSvg) =
        "<svg><script></script></svg>" := by
  refine ⟨by decide, by decide, by decide⟩

/-- C3: evaluating the scheduler at the failing interleaving — source
edited to a first value, render of that snapshot in flight, source edited
to a newer value, the newer render completes first, then the older (stale)
completion lands — shows the stale completion overwriting the newer
output, because every completion applies its state setters unconditionally
(the per-call identifier is only a DOM element id and is never compared). -/
theorem c3_stale_completion_overwrites :
    (reach [.edit "graph TD\n  A-->B", .edit "graph TD\n  A-->C",
        .render "graph TD\n  A-->C" (.ok "<svg>newer</svg>"),
        .render "graph TD\n  A-->B" (.ok "<svg>stale</svg>")]).svgOutput =
      "<svg>stale</svg>" ∧
      ("<svg>stale</svg>" : String) ≠ "<svg>newer</svg>" := by
  refine ⟨by decide, by decide⟩

/-- C4, counterexample to the claim as stated: after a successful render
followed by a failed one, the reachable state keeps the non-empty previous
output while `isValid` is false. -/
theorem c4_counterexample :
    (reach [.edit "graph TD\n  A-->B", .render "graph TD\n  A-->B" (.ok "<svg>good</svg>"),
        .edit "graph TD\n  A-->(",
        .render "graph TD\n  A-->(" (.err (some "Parse error"))]).svgOutput ≠ "" ∧
      (reach [.edit "graph TD\n  A-->B", .render "graph TD\n  A-->B" (.ok "<svg>good</svg>"),
        .edit "graph TD\n  A-->(",
        .render "graph TD\n  A-->(" (.err (some "Parse error"))]).isValid = false := by
  refine ⟨by decide, by decide⟩

/-- C4, amended: in every reachable state a non-empty `svgOutput` is the
markup of some successful render of a non-blank source snapshot; the
original conjuncts (`isValid` true and current source non-blank) do not
hold, since a later failed render or source edit retains the output. -/
theorem c4_nonempty_output_from_success (evs : List REv)
    (h : (reach evs).svgOutput ≠ "") :
    ∃ code svg, REv.render code (.ok svg) ∈ evs ∧ jsTrim code ≠ "" ∧
      (reach evs).svgOutput = svg := by
  rcases foldl_svgOutput_source evs initState h with h1 | h2
  · exact h1
  · exact absurd h2 (by simpa [initState] using h)

/-- C4, witness for the amended theorem at a concrete trace. -/
theorem c4_nonempty_output_from_success_witness :
    ∃ code svg,
      REv.render code (.ok svg) ∈ [REv.render "graph TD" (.ok "<svg>g</svg>")] ∧
        jsTrim code ≠ "" ∧
        (reach [REv.render "graph TD" (.ok "<svg>g</svg>")]).svgOutput = svg :=
  c4_nonempty_output_from_success [REv.render "graph TD" (.ok "<svg>g</svg>")]
    (by decide)

/-- C5: when the external renderer fails on a non-blank source, the
completion sets `isValid` false with the failure message (or the fixed
fallback text when the thrown value is not an `Error`) and leaves the
rendered output — and the rest of the state — unchanged. -/
theorem c5_failure_sets_validity_keeps_output
    (st : EditorState) (code : String) (m : Option String)
    (hc : jsTrim code ≠ "") :
    (renderDiagram code (.err m) st).svgOutput = st.svgOutput ∧
      (renderDiagram code (.err m) st).isValid = false ∧
      (renderDiagram code (.err m) st).error =
        some (m.getD "Invalid diagram syntax") ∧
      (renderDiagram code (.err m) st).code = st.code := by
  refine ⟨?_, ?_, ?_, ?_⟩ <;> simp [renderDiagram, hc]

/-- C5, witness at a concrete failing render. -/
theorem c5_failure_sets_validity_keeps_output_witness :
    (renderDiagram "graph TD(" (.err (some "Parse error")) initState).svgOutput =
        initState.svgOutput ∧
      (renderDiagram "graph TD(" (.err (some "Parse error")) initState).isValid = false ∧
      (renderDiagram "graph TD(" (.err (some "Parse error")) initState).error =
        some ((some "Parse error").getD "Invalid diagram syntax") ∧
      (renderDiagram "graph TD(" (.err (some "Parse error")) initState).code =
        initState.code :=
  c5_failure_sets_validity_keeps_output initState "graph TD(" (some "Parse error")
    (by decide)

/-- C6: with non-degenerate rename arguments, if the patterns before index
`i` fail their test and pattern `i` matches, the rename applies the global
replace of pattern `i` with the `$1${newText}$2` replacement string under
JS dollar substitution (committing only when the text changed) and no later
pattern; in particular, in the spec scenario, the participant declaration
is renamed while the message-sender occurrence on the second line keeps
the old name. -/
theorem c6_first_matching_pattern_applied
    (oldText newText code : String) (i : Nat)
    (h : i < (renamePatterns oldText.data).length)
    (h1 : oldText ≠ "") (h2 : newText ≠ "") (h3 : oldText ≠ newText)
    (hskip : ((renamePatterns oldText.data).take i).all
        (fun p => !hasMatch code.data p) = true)
    (hhit : hasMatch code.data ((renamePatterns oldText.data).get ⟨i, h⟩) = true) :
    (handleRename oldText newText code =
      (if gReplace code.data ((renamePatterns oldText.data).get ⟨i, h⟩)
          (replTemplate newText.data) ≠ code.data
       then String.mk
         (gReplace code.data ((renamePatterns oldText.data).get ⟨i, h⟩)
           (replTemplate newText.data))
       else code)) ∧
    handleRename "Alice" "Carol" "participant Alice\nAlice->>Bob: hi" =
      "participant Carol\nAlice->>Bob: hi" := by
  constructor
  · have hfind : (renamePatterns oldText.data).find? (fun p => hasMatch code.data p)
        = some ((renamePatterns oldText.data).get ⟨i, h⟩) :=
      find?_of_take_all _ _ i h hskip hhit
    have hg : (oldText = "" || newText = "" || oldText = newText) = false := by
      simp [h1, h2, h3]
    simp only [handleRename, hg, Bool.false_eq_true, if_false,
      tryPatterns_eq_find, hfind, Option.map_some]
    rfl
  · decide

/-- C6, witness: the spec scenario instantiates the theorem at pattern
index 0 (the participant pattern). -/
theorem c6_first_matching_pattern_applied_witness :
    (handleRename "Alice" "Carol" "participant Alice\nAlice->>Bob: hi" =
      (if gReplace ("participant Alice\nAlice->>Bob: hi").data
          ((renamePatterns "Alice".data).get ⟨0, by decide⟩)
          (replTemplate "Carol".data)
          ≠ ("participant Alice\nAlice->>Bob: hi").data
       then String.mk
         (gReplace ("participant Alice\nAlice->>Bob: hi").data
           ((renamePatterns "Alice".data).get ⟨0, by decide⟩)
           (replTemplate "Carol".data))
       else "participant Alice\nAlice->>Bob: hi")) ∧
    handleRename "Alice" "Carol" "participant Alice\nAlice->>Bob: hi" =
      "participant Carol\nAlice->>Bob: hi" :=
  c6_first_matching_pattern_applied "Alice" "Carol"
    "participant Alice\nAlice->>Bob: hi" 0 (by decide) (by decide) (by decide)
    (by decide) (by decide) (by decide)

/-- The JSON text of a project file missing its `code` field, written via
escaped brace code points. -/
def malformedProjectContent : String :=
  String.mk ([lbrace] ++ "\"version\":\"1.0\"".data ++ [rbrace])

/-- C7, counterexample to the claim as stated: a `.flowilham` project file
whose JSON parses but has no `code` field is not rejected — the parser
falls through to the raw-text route, imports the JSON text itself as
diagram code, and the session is modified. -/
theorem c7_malformed_flowilham_imports :
    parseImportedFile "diagram.flowilham" malformedProjectContent
        (some (.obj (.cons "version" (.str "1.0") .nil))) =
      .ok ⟨malformedProjectContent, some (.str "flowchart"), none, none, none⟩ ∧
    applyImportResult ⟨"graph TD", .str "flowchart", .str "default", .str ""⟩
        (parseImportedFile "diagram.flowilham" malformedProjectContent
          (some (.obj (.cons "version" (.str "1.0") .nil)))) ≠
      ⟨"graph TD", .str "flowchart", .str "default", .str ""⟩ := by
  refine ⟨by decide, by decide⟩

/-- C7, amended: for a `.json` import, corrupt JSON or a missing/non-string
`code` field is rejected with a specific reason; every rejected import
leaves the session untouched; but a `.flowilham` file with such content is
not rejected — it falls through to raw-text import of the file content. -/
theorem c7_json_rejected_session_untouched
    (f1 f2 content : String) (v : JsonValue) (st : SessionState) (msg : String)
    (hj : extOf f1 = "json") (hf : extOf f2 = "flowilham")
    (hv : validateProjectFile v = false) :
    parseImportedFile f1 content none = .error jsonSyntaxErrorMsg ∧
      parseImportedFile f1 content (some v) =
        .error "Invalid project file: missing or invalid code field" ∧
      applyImportResult st (.error msg) = st ∧
      parseImportedFile f2 content (some v) = rawImport content := by
  refine ⟨?_, ?_, rfl, ?_⟩
  · simp [parseImportedFile, hj]
  · simp [parseImportedFile, hj, hv]
  · simp [parseImportedFile, hf, hv]

/-- C7, witness for the amended theorem at concrete files. -/
theorem c7_json_rejected_session_untouched_witness :
    parseImportedFile "a.json" "not json" none = .error jsonSyntaxErrorMsg ∧
      parseImportedFile "a.json" "not json" (some (.obj .nil)) =
        .error "Invalid project file: missing or invalid code field" ∧
      applyImportResult ⟨"graph TD", .null, .null, .null⟩ (.error "m") =
        ⟨"graph TD", .null, .null, .null⟩ ∧
      parseImportedFile "p.flowilham" "not json" (some (.obj .nil)) =
        rawImport "not json" :=
  c7_json_rejected_session_untouched "a.json" "p.flowilham" "not json"
    (.obj .nil) ⟨"graph TD", .null, .null, .null⟩ "m"
    (by decide) (by decide) (by decide)

/-- C8: a payload of exactly 1,000,001 characters is rejected with the
size-limit error and one of exactly 1,000,000 characters is accepted
unmodified, both on the raw `.mmd` route and for the `code` field of a
`.json` project file. -/
theorem c8_import_size_ceiling (c1 c2 : String)
    (h1 : c1.length = 1000001) (h2 : c2.length = 1000000) :
    parseImportedFile "diagram.mmd" c1 none =
        .error "File size exceeds maximum limit (1MB)" ∧
      (∃ r, parseImportedFile "diagram.mmd" c2 none = .ok r ∧ r.code = c2) ∧
      parseImportedFile "project.json" "ignored"
          (some (.obj (.cons "code" (.str c1) .nil))) =
        .error "File size exceeds maximum limit (1MB)" ∧
      (∃ r, parseImportedFile "project.json" "ignored"
          (some (.obj (.cons "code" (.str c2) .nil))) = .ok r ∧ r.code = c2) := by
  have hmmd : (extOf "diagram.mmd" = "flowilham" || extOf "diagram.mmd" = "json") = false :=
    by decide
  have hjson : (extOf "project.json" = "flowilham" || extOf "project.json" = "json") = true :=
    by decide
  have hjson2 : extOf "project.json" = "json" := by decide
  refine ⟨?_, ?_, ?_, ?_⟩
  · simp [parseImportedFile, hmmd, rawImport, sanitizeImportedCode, h1]
  · refine ⟨⟨c2, some (.str (DiagramType.toStr (detectDiagramType c2))), none, none, none⟩, ?_, rfl⟩
    simp [parseImportedFile, hmmd, rawImport, sanitizeImportedCode, h2]
  · simp [parseImportedFile, hjson, hjson2, validateProjectFile, getField,
      sanitizeImportedCode, h1]
  · refine ⟨⟨c2, none, none, none, none⟩, ?_, rfl⟩
    simp [parseImportedFile, hjson, hjson2, validateProjectFile, getField,
      sanitizeImportedCode, h2]

/-- C8, witness at concrete payloads of the two boundary lengths. -/
theorem c8_import_size_ceiling_witness :
    parseImportedFile "diagram.mmd" (String.mk (List.replicate 1000001 'a')) none =
        .error "File size exceeds maximum limit (1MB)" ∧
      (∃ r, parseImportedFile "diagram.mmd" (String.mk (List.replicate 1000000 'a')) none
          = .ok r ∧ r.code = String.mk (List.replicate 1000000 'a')) ∧
      parseImportedFile "project.json" "ignored"
          (some (.obj (.cons "code" (.str (String.mk (List.replicate 1000001 'a'))) .nil))) =
        .error "File size exceeds maximum limit (1MB)" ∧
      (∃ r, parseImportedFile "project.json" "ignored"
          (some (.obj (.cons "code" (.str (String.mk (List.replicate 1000000 'a'))) .nil)))
          = .ok r ∧ r.code = String.mk (List.replicate 1000000 'a')) :=
  c8_import_size_ceiling (String.mk (List.replicate 1000001 'a'))
    (String.mk (List.replicate 1000000 'a'))
    (by show (List.replicate 1000001 'a').length = 1000001
        rw [List.length_replicate])
    (by show (List.replicate 1000000 'a').length = 1000000
        rw [List.length_replicate])

/-- Characters of an appended string. -/
theorem data_append (a b : String) : (a ++ b).data = a.data ++ b.data := rfl

/-- C9: whatever the title, every character of the generated filename is an
ASCII letter, digit, underscore or hyphen (given a `YYYY-MM-DD` date
string), because the title is trimmed, stripped to `[a-zA-Z0-9\s\-_]` and
its whitespace runs collapsed to single underscores; and when the title is
absent or trims to nothing the filename is the diagram type, a hyphen, and
the date. -/
theorem c9_filename_charset (dt : DiagramType) (title : Option String)
    (dateStr : String)
    (hd : ∀ c ∈ dateStr.data, c.isDigit = true ∨ c = '-') :
    (∀ c ∈ (generateFilename dt title dateStr).data,
        asciiAlphanum c = true ∨ c = '_' ∨ c = '-') ∧
      (title = none → generateFilename dt title dateStr = dt.toStr ++ "-" ++ dateStr) ∧
      (∀ t, title = some t → jsTrim t = "" →
        generateFilename dt title dateStr = dt.toStr ++ "-" ++ dateStr) := by
  have hfb : ∀ c ∈ (dt.toStr ++ "-" ++ dateStr).data,
      asciiAlphanum c = true ∨ c = '_' ∨ c = '-' := by
    intro c hc
    rw [data_append, data_append] at hc
    rcases List.mem_append.mp hc with hc1 | hc2
    · rcases List.mem_append.mp hc1 with hA | hB
      · exact Or.inl (toStr_chars dt c hA)
      · have : c = '-' := by simpa using hB
        exact Or.inr (Or.inr this)
    · rcases hd c hc2 with hdg | hdash
      · exact Or.inl (by simp [asciiAlphanum, hdg])
      · exact Or.inr (Or.inr hdash)
  refine ⟨?_, ?_, ?_⟩
  · cases title with
    | none => exact hfb
    | some t =>
      by_cases hcond : (strTruthy t && strTruthy (jsTrim t)) = true
      · intro c hc
        rw [show generateFilename dt (some t) dateStr =
            String.mk (collapseWsToUnderscore
              ((jsTrimList t.data).filter keepFilenameChar)) ++ "_" ++ dateStr ++
              "_" ++ dt.toStr from by simp [generateFilename, hcond]] at hc
        rw [data_append, data_append, data_append] at hc
        rcases List.mem_append.mp hc with hc1 | hcT
        · rcases List.mem_append.mp hc1 with hc2 | hcU2
          · rcases List.mem_append.mp hc2 with hc3 | hcD
            · rcases List.mem_append.mp hc3 with hcS | hcU1
              · rcases mem_collapseWsAux _ false c hcS with hu | ⟨hmem, hws⟩
                · exact Or.inr (Or.inl hu)
                · have hkeep := (List.mem_filter.mp hmem).2
                  simp [keepFilenameChar, hws] at hkeep
                  rcases hkeep with (ha | hdash) | hu
                  · exact Or.inl ha
                  · exact Or.inr (Or.inr hdash)
                  · exact Or.inr (Or.inl hu)
              · have : c = '_' := by simpa using hcU1
                exact Or.inr (Or.inl this)
            · rcases hd c hcD with hdg | hdash
              · exact Or.inl (by simp [asciiAlphanum, hdg])
              · exact Or.inr (Or.inr hdash)
          · have : c = '_' := by simpa using hcU2
            exact Or.inr (Or.inl this)
        · exact Or.inl (toStr_chars dt c hcT)
      · intro c hc
        apply hfb
        rw [show generateFilename dt (some t) dateStr = dt.toStr ++ "-" ++ dateStr
          from by simp [generateFilename, hcond]] at hc
        exact hc
  · intro h
    subst h
    rfl
  · intro t ht htr
    subst ht
    simp [generateFilename, htr, strTruthy]

/-- C9, witness at a concrete title and date. -/
theorem c9_filename_charset_witness :
    (∀ c ∈ (generateFilename .flowchart (some "My Chart") "2026-10-11").data,
        asciiAlphanum c = true ∨ c = '_' ∨ c = '-') ∧
      ((some "My Chart" : Option String) = none →
        generateFilename .flowchart (some "My Chart") "2026-10-11" =
          DiagramType.toStr .flowchart ++ "-" ++ "2026-10-11") ∧
      (∀ t, (some "My Chart" : Option String) = some t → jsTrim t = "" →
        generateFilename .flowchart (some "My Chart") "2026-10-11" =
          DiagramType.toStr .flowchart ++ "-" ++ "2026-10-11") :=
  c9_filename_charset .flowchart (some "My Chart") "2026-10-11" (by decide)

/-- C10: the in-canvas edit flow never fires the rename callback for a
guarded click (empty extracted text, brace characters, or a hex color) —
the edit state is left untouched — nor for a guarded submit (empty new
text or text equal to the original), in which case the submit fires no
callback and the source text is unchanged. -/
theorem c10_no_rename_on_guarded_inputs
    (onR drag hasRect : Bool) (text : String) (px py : Int)
    (st st2 : EditState) (src : String)
    (hclick : text = "" ∨ text.data.contains lbrace = true ∨
        text.data.contains rbrace = true ∨ hexColorMatch text.data = true)
    (hsub : st2.newText = "" ∨ st2.newText = st2.originalText) :
    handleDiagramClick onR drag text hasRect px py st = st ∧
      (handleEditSubmit st2).1 = none ∧ applySubmit st2 src = src := by
  have hsubmit : (handleEditSubmit st2).1 = none := by
    rcases hsub with h | h
    · simp [handleEditSubmit, strTruthy, h]
    · simp [handleEditSubmit, h]
  refine ⟨?_, hsubmit, ?_⟩
  · unfold handleDiagramClick
    split_ifs with g1 g2 g3 g4
    · rfl
    · rfl
    · rfl
    · rfl
    · exfalso
      rcases hclick with h | h | h | h
      · exact g2 h
      · exact g3 (by simp only [h, Bool.true_or, Bool.or_true])
      · exact g3 (by simp only [h, Bool.true_or, Bool.or_true])
      · exact g3 (by simp only [h, Bool.true_or, Bool.or_true])
  · simp [applySubmit, hsubmit]

/-- C10, witness at a hex-color click text and an unchanged submit text. -/
theorem c10_no_rename_on_guarded_inputs_witness :
    handleDiagramClick true false "#a1b2c3" true 0 0 clearedEditState =
        clearedEditState ∧
      (handleEditSubmit ⟨true, "Alice", "Alice", 0, 0⟩).1 = none ∧
        applySubmit ⟨true, "Alice", "Alice", 0, 0⟩ "participant Alice" =
          "participant Alice" :=
  c10_no_rename_on_guarded_inputs true false true "#a1b2c3" 0 0
    clearedEditState ⟨true, "Alice", "Alice", 0, 0⟩ "participant Alice"
    (by decide) (by decide)

end FlowCanvas
